import Mathlib

/-!
Verification of the flask-team-app task tracker (files `run.py` and
`app/routes.py`). The two revisions share their persistence, identity and
sorting helpers verbatim; they differ in `apply_filters`, so that function is
embedded twice, in namespaces `Run` and `Routes`.

Python dictionaries for tasks are embedded as a `TaskRec` structure; an absent
optional field is represented by the empty string, which is interchangeable
with absence at every use site in the source (`t.get(...) or ""`-style reads
and `!= "complete"` comparisons treat `None` and `""` alike).
-/

/-- A task record as stored in a per-user tasks document. Optional fields that
may be missing on legacy records are represented by `""`. -/
structure TaskRec where
  id : Int
  title : String
  memo : String
  status : String
  due_date : String
  created_at : String
deriving DecidableEq, Repr

/-- A calendar date as produced by `datetime.date.fromisoformat`. -/
structure Date where
  year : Nat
  month : Nat
  day : Nat
deriving DecidableEq, Repr

/-- Gregorian leap-year test, as in `datetime`(CPython `_is_leap`). -/
def isLeap (y : Nat) : Bool :=
  y % 4 == 0 && (y % 100 != 0 || y % 400 == 0)

/-- Number of days in a month (CPython `_days_in_month`). -/
def daysInMonth (y m : Nat) : Nat :=
  if m = 2 then (if isLeap y then 29 else 28)
  else if m = 4 ∨ m = 6 ∨ m = 9 ∨ m = 11 then 30
  else 31

/-- Number of days in the year preceding the first of the given month
(CPython `_days_before_month`). -/
def daysBeforeMonth (y m : Nat) : Nat :=
  (match m with
   | 1 => 0 | 2 => 31 | 3 => 59 | 4 => 90 | 5 => 120 | 6 => 151
   | 7 => 181 | 8 => 212 | 9 => 243 | 10 => 273 | 11 => 304 | _ => 334)
  + (if 2 < m ∧ isLeap y then 1 else 0)

/-- Days before January 1 of the given year (CPython `_days_before_year`):
`365*(y-1) + (y-1)//4 - (y-1)//100 + (y-1)//400`. -/
def daysBeforeYear (y : Nat) : Nat :=
  365 * (y - 1) + (y - 1) / 4 - (y - 1) / 100 + (y - 1) / 400

/-- Proleptic Gregorian ordinal of a date (`date.toordinal`). -/
def toordinal (d : Date) : Nat :=
  daysBeforeYear d.year + daysBeforeMonth d.year d.month + d.day

/-- The bounds checks performed by the `datetime.date` constructor. -/
def validDate (d : Date) : Prop :=
  1 ≤ d.year ∧ d.year ≤ 9999 ∧ 1 ≤ d.month ∧ d.month ≤ 12 ∧
    1 ≤ d.day ∧ d.day ≤ daysInMonth d.year d.month

instance : DecidablePred validDate := fun d => by unfold validDate; infer_instance

/-- Numeric value of a decimal digit character. -/
def digitVal (c : Char) : Nat := c.toNat - 48

/-- Python `str.isspace` on the ASCII whitespace characters removed by
`str.strip()`. -/
def py_isspace (c : Char) : Bool :=
  c == ' ' || c == '\t' || c == '\n' || c == '\r' || c == '\x0b' || c == '\x0c'

/-- Python `str.strip()`: drop leading and trailing whitespace. -/
def py_strip (s : String) : String :=
  String.mk (((s.toList.dropWhile py_isspace).reverse.dropWhile py_isspace).reverse)

/-- Python `str.lower()` (ASCII range; every string compared case-insensitively
by the source is ASCII). -/
def py_lower (s : String) : String :=
  String.mk (s.toList.map Char.toLower)

/-- Python `str.startswith`. -/
def starts_with (s pre : String) : Bool :=
  pre.toList.isPrefixOf s.toList

/-- Occurrence test for a character list inside another. -/
def has_substr (hay needle : List Char) : Bool :=
  match hay with
  | [] => needle.isEmpty
  | _ :: t => needle.isPrefixOf hay || has_substr t needle

/-- Embedding of `parse_date_yyyy_mm_dd`: `datetime.date.fromisoformat` on a
strict `YYYY-MM-DD` layout, returning `none` for the empty string (falsy
guard in the source) and for any string that is not a valid calendar date. -/
def parse_date_yyyy_mm_dd (value : String) : Option Date :=
  if value = "" then none
  else
    match value.toList with
    | [y1, y2, y3, y4, '-', m1, m2, '-', d1, d2] =>
      if (y1.isDigit && y2.isDigit && y3.isDigit && y4.isDigit &&
          m1.isDigit && m2.isDigit && d1.isDigit && d2.isDigit) then
        if validDate { year := 1000 * digitVal y1 + 100 * digitVal y2 + 10 * digitVal y3 + digitVal y4
                       month := 10 * digitVal m1 + digitVal m2
                       day := 10 * digitVal d1 + digitVal d2 } then
          some { year := 1000 * digitVal y1 + 100 * digitVal y2 + 10 * digitVal y3 + digitVal y4
                 month := 10 * digitVal m1 + digitVal m2
                 day := 10 * digitVal d1 + digitVal d2 }
        else none
      else none
    | _ => none

/-- Embedding of `compute_stats`: `(total, complete, incomplete)` counts. -/
def compute_stats (tasks : List TaskRec) : Nat × Nat × Nat :=
  let total := tasks.length
  let complete := (tasks.filter (fun t => t.status == "complete")).length
  let incomplete := total - complete
  (total, complete, incomplete)

/-- Embedding of `next_id`: `max((t.get("id", 0) for t in tasks), default=0) + 1`. -/
def next_id (tasks : List TaskRec) : Int :=
  (match tasks.map (fun t => t.id) with
   | [] => 0
   | x :: xs => xs.foldl max x) + 1

/-- Embedding of `find_task`: first task whose id equals `task_id`, if any. -/
def find_task (tasks : List TaskRec) (task_id : Int) : Option TaskRec :=
  tasks.find? (fun t => t.id == task_id)

/-- The status flip performed by the toggle route:
`"complete" if task.get("status") != "complete" else "incomplete"`. -/
def flip_status (s : String) : String :=
  if s ≠ "complete" then "complete" else "incomplete"

/-- In-place mutation of the first task with the given id, as done by the
`toggle_task` handler on the loaded list. -/
def toggle_first : List TaskRec → Int → List TaskRec
  | [], _ => []
  | t :: ts, i =>
    if t.id == i then { t with status := flip_status t.status } :: ts
    else t :: toggle_first ts i

/-- Embedding of the `toggle_task` route body on a loaded collection:
404 (`none`) when no task has the id, otherwise the collection that is saved
back, with the first matching task's status flipped. -/
def toggle_task (tasks : List TaskRec) (task_id : Int) : Option (List TaskRec) :=
  match find_task tasks task_id with
  | none => none
  | some _ => some (toggle_first tasks task_id)

/-- Embedding of the `add_task` route body on a loaded collection. The current
time is ambient state, passed in as `now`. Returns `none` on the two
validation failures (empty trimmed title, non-empty unparseable due date), in
which case nothing is appended or saved. -/
def add_task (tasks : List TaskRec) (title memo due_date now : String) :
    Option (List TaskRec) :=
  let title := py_strip title
  let memo := py_strip memo
  let due_date := py_strip due_date
  if title = "" then none
  else if due_date ≠ "" ∧ parse_date_yyyy_mm_dd due_date = none then none
  else some (tasks ++ [{ id := next_id tasks, title := title, memo := memo,
                         status := "incomplete", due_date := due_date,
                         created_at := now }])

/-- A JSON document, as returned by `json.load`. -/
inductive Json where
  | null : Json
  | bool (b : Bool) : Json
  | num (n : Int) : Json
  | str (s : String) : Json
  | arr (items : List Json) : Json
  | obj (fields : List (String × Json)) : Json

/-- The possible outcomes of opening and parsing a data file: the file is
absent, `json.load` raises `JSONDecodeError`, or it parses to a document. -/
inductive ReadResult where
  | missing : ReadResult
  | malformed : ReadResult
  | content (v : Json) : ReadResult

/-- Embedding of `load_tasks` over the state of the user's tasks file: a
missing file returns `[]` before any read, `JSONDecodeError` is caught and
returns `[]`, and any successfully parsed document is returned unchanged. -/
def load_tasks (file : ReadResult) : Json :=
  match file with
  | .missing => Json.arr []
  | .malformed => Json.arr []
  | .content v => v

/-- Embedding of `load_users` over the state of the users file:
`ensure_data_files` creates an empty `[]` document when the file is missing,
`JSONDecodeError` is caught and returns `[]`, and any successfully parsed
document is returned unchanged. -/
def load_users (file : ReadResult) : Json :=
  match file with
  | .missing => Json.arr []
  | .malformed => Json.arr []
  | .content v => v

/-- Embedding of the post-login redirect-target computation in `login_post`:
`next_url = request.form.get("next") or url_for("home_page")`, then absolute
`http://`/`https://` targets are replaced by the home URL. `home` stands for
`url_for("home_page")`. -/
def login_next_url (home next : String) : String :=
  let next_url := if next = "" then home else next
  if starts_with next_url "http://" || starts_with next_url "https://" then home
  else next_url

/-- Strict comparison of Python `date` objects: lexicographic on
`(year, month, day)`. -/
def dateLtb (a b : Date) : Bool :=
  a.year < b.year ||
    (a.year == b.year &&
      (a.month < b.month || (a.month == b.month && a.day < b.day)))

/-- Python substring test `needle in hay`. -/
def str_contains (hay needle : String) : Bool :=
  has_substr hay.toList needle.toList

/-- Python `str.capitalize`: first character uppercased, the rest lowered. -/
def py_capitalize (s : String) : String :=
  match s.toList with
  | [] => ""
  | c :: rest => String.mk (c.toUpper :: rest.map Char.toLower)

/-- Decimal rendering padded with leading zeros to the given width. -/
def natPad (w n : Nat) : String :=
  let s := toString n
  if s.length < w then String.mk (List.replicate (w - s.length) '0') ++ s
  else s

/-- Python `date.isoformat()`. -/
def date_iso (d : Date) : String :=
  natPad 4 d.year ++ "-" ++ natPad 2 d.month ++ "-" ++ natPad 2 d.day

/-- The `matches` predicate of the search stage, shared verbatim by both
revisions: the lowered query is a substring of the lowered title or memo. -/
def task_matches (needle : String) (t : TaskRec) : Bool :=
  str_contains (py_lower t.title) needle || str_contains (py_lower t.memo) needle

/-- The search stage, shared verbatim by both revisions: a no-op for an empty
trimmed query, otherwise a case-insensitive containment filter. -/
def search_filter (q1 : String) (tasks : List TaskRec) : List TaskRec :=
  if q1 = "" then tasks
  else tasks.filter (task_matches (py_lower q1))

/-- The `in_range` predicate shared by both revisions: a task passes only if
its due date parses and lies within the present bounds (inclusive). -/
def in_range (from_dt to_dt : Option Date) (t : TaskRec) : Bool :=
  match parse_date_yyyy_mm_dd t.due_date with
  | none => false
  | some d =>
    (match from_dt with | some f => !dateLtb d f | none => true) &&
    (match to_dt with | some g => !dateLtb g d | none => true)

/-- The reversed-bounds test `from_dt and to_dt and from_dt > to_dt`. -/
def reversed_range : Option Date → Option Date → Bool
  | some f, some g => dateLtb g f
  | _, _ => false

/-- The largest representable date, `datetime.date.max`. -/
def date_max : Date := { year := 9999, month := 12, day := 31 }

/-- The smallest representable date, `datetime.date.min`. -/
def date_min : Date := { year := 1, month := 1, day := 1 }

/-- Strict ordering on `Bool`: Python `False < True`. -/
def boolLtb (x y : Bool) : Bool := !x && y

/-- Strict lexicographic ordering on character lists, matching Python's
code-point string comparison. -/
def listLtb : List Char → List Char → Bool
  | [], [] => false
  | [], _ :: _ => true
  | _ :: _, [] => false
  | a :: as, b :: bs => a < b || (a == b && listLtb as bs)

/-- Python `str <`. -/
def strLtb (a b : String) : Bool := listLtb a.toList b.toList

/-- Python `str <=`. -/
def strLeb (a b : String) : Bool := strLtb a b || a == b

/-- Python `int <`. -/
def intLtb (a b : Int) : Bool := a < b

/-- Lexicographic `<=` on a pair from a strict ordering on the first
component and a `<=` on the second: Python tuple comparison. -/
def lexb {α β : Type} [BEq α] (ltA : α → α → Bool) (leB : β → β → Bool)
    (x y : α × β) : Bool :=
  ltA x.1 y.1 || (x.1 == y.1 && leB x.2 y.2)

/-- Sort key of the `due_asc` branch of `sort_tasks`:
`(parse(due) is None, parse(due) or date.max, created_at or "")`. -/
def due_asc_key (t : TaskRec) : Bool × Date × String :=
  ((parse_date_yyyy_mm_dd t.due_date).isNone,
   (parse_date_yyyy_mm_dd t.due_date).getD date_max,
   t.created_at)

/-- Sort key of the `due_desc` branch of `sort_tasks`:
`(parse(due) is None, -(parse(due) or date.min).toordinal(), created_at or "")`. -/
def due_desc_key (t : TaskRec) : Bool × Int × String :=
  ((parse_date_yyyy_mm_dd t.due_date).isNone,
   -(Int.ofNat (toordinal ((parse_date_yyyy_mm_dd t.due_date).getD date_min))),
   t.created_at)

/-- Sort key of the `status` branch of `sort_tasks`:
`(status == "complete", created_at or "")`. -/
def status_key (t : TaskRec) : Bool × String :=
  (t.status == "complete", t.created_at)

/-- Comparator of the `due_asc` branch (Python tuple comparison of keys). -/
def due_asc_le (a b : TaskRec) : Bool :=
  lexb boolLtb (lexb dateLtb strLeb) (due_asc_key a) (due_asc_key b)

/-- Comparator of the `due_desc` branch. -/
def due_desc_le (a b : TaskRec) : Bool :=
  lexb boolLtb (lexb intLtb strLeb) (due_desc_key a) (due_desc_key b)

/-- Comparator of the `status` branch. -/
def status_le (a b : TaskRec) : Bool :=
  lexb boolLtb strLeb (status_key a) (status_key b)

/-- Comparator of the `oldest` branch: ascending created-at. -/
def created_le (a b : TaskRec) : Bool := strLeb a.created_at b.created_at

/-- Comparator of the `newest` branch: `sorted(..., reverse=True)` on the
created-at key, i.e. the reversed comparison, still stable. -/
def created_ge (a b : TaskRec) : Bool := strLeb b.created_at a.created_at

/-- Embedding of `sort_tasks` (identical in both revisions): a stable sort by
the selected key, returning the input in its existing order for any
unrecognized key. -/
def sort_tasks (tasks : List TaskRec) (sort_key : String) : List TaskRec :=
  let sk := py_strip sort_key
  if sk = "due_asc" then tasks.mergeSort due_asc_le
  else if sk = "due_desc" then tasks.mergeSort due_desc_le
  else if sk = "status" then tasks.mergeSort status_le
  else if sk = "newest" then tasks.mergeSort created_ge
  else if sk = "oldest" then tasks.mergeSort created_le
  else tasks

/-- The comparator `sort_tasks` uses for a given key; for an unrecognized key
every pair of tasks counts as tied (the list is returned unchanged). -/
def sort_le (sort_key : String) : TaskRec → TaskRec → Bool :=
  let sk := py_strip sort_key
  if sk = "due_asc" then due_asc_le
  else if sk = "due_desc" then due_desc_le
  else if sk = "status" then status_le
  else if sk = "newest" then created_ge
  else if sk = "oldest" then created_le
  else fun _ _ => true

theorem lexb_trans {α β : Type} [BEq α] [LawfulBEq α]
    {ltA : α → α → Bool} {leB : β → β → Bool}
    (hA : ∀ a b c, ltA a b → ltA b c → ltA a c)
    (hB : ∀ a b c, leB a b → leB b c → leB a c) :
    ∀ x y z, lexb ltA leB x y → lexb ltA leB y z → lexb ltA leB x z := by
  rintro ⟨x1, x2⟩ ⟨y1, y2⟩ ⟨z1, z2⟩ hxy hyz
  simp only [lexb, Bool.or_eq_true, Bool.and_eq_true, beq_iff_eq] at *
  rcases hxy with h1 | ⟨rfl, h2⟩ <;> rcases hyz with h3 | ⟨h3, h4⟩
  · exact Or.inl (hA _ _ _ h1 h3)
  · exact Or.inl (h3 ▸ h1)
  · exact Or.inl h3
  · exact Or.inr ⟨h3, hB _ _ _ h2 h4⟩

theorem lexb_total {α β : Type} [BEq α] [LawfulBEq α]
    {ltA : α → α → Bool} {leB : β → β → Bool}
    (hA : ∀ a b, ltA a b || a == b || ltA b a)
    (hB : ∀ a b, leB a b || leB b a) :
    ∀ x y, lexb ltA leB x y || lexb ltA leB y x := by
  rintro ⟨x1, x2⟩ ⟨y1, y2⟩
  simp only [lexb, Bool.or_eq_true, Bool.and_eq_true, beq_iff_eq]
  rcases (by simpa using hA x1 y1 :
      (ltA x1 y1 = true ∨ x1 = y1) ∨ ltA y1 x1 = true) with (h | h) | h
  · exact Or.inl (Or.inl h)
  · subst h
    rcases (by simpa using hB x2 y2 : leB x2 y2 = true ∨ leB y2 x2 = true) with h | h
    · exact Or.inl (Or.inr ⟨rfl, h⟩)
    · exact Or.inr (Or.inr ⟨rfl, h⟩)
  · exact Or.inr (Or.inl h)

theorem boolLtb_trans : ∀ a b c, boolLtb a b → boolLtb b c → boolLtb a c := by decide

theorem boolLtb_tri : ∀ a b, boolLtb a b || a == b || boolLtb b a := by decide

theorem dateLtb_trans : ∀ a b c, dateLtb a b → dateLtb b c → dateLtb a c := by
  rintro ⟨ay, am, ad⟩ ⟨by1, bm, bd⟩ ⟨cy, cm, cd⟩ h1 h2
  simp only [dateLtb, Bool.or_eq_true, Bool.and_eq_true, beq_iff_eq,
    decide_eq_true_iff] at *
  omega

theorem dateLtb_tri : ∀ a b, dateLtb a b || a == b || dateLtb b a := by
  rintro ⟨ay, am, ad⟩ ⟨by1, bm, bd⟩
  simp only [dateLtb, Bool.or_eq_true, Bool.and_eq_true, beq_iff_eq,
    decide_eq_true_iff, Date.mk.injEq]
  omega

theorem intLtb_trans : ∀ a b c, intLtb a b → intLtb b c → intLtb a c := by
  intro a b c h1 h2
  simp only [intLtb, decide_eq_true_iff] at *
  omega

theorem intLtb_tri : ∀ a b, intLtb a b || a == b || intLtb b a := by
  intro a b
  simp only [intLtb, Bool.or_eq_true, beq_iff_eq, decide_eq_true_iff]
  omega

theorem listLtb_trans : ∀ as bs cs : List Char,
    listLtb as bs → listLtb bs cs → listLtb as cs := by
  intro as
  induction as with
  | nil =>
    intro bs cs h1 h2
    cases bs with
    | nil => exact h2
    | cons b bt => cases cs with
      | nil => simp [listLtb] at h2
      | cons c ct => simp [listLtb]
  | cons a at1 ih =>
    intro bs cs h1 h2
    cases bs with
    | nil => simp [listLtb] at h1
    | cons b bt =>
      cases cs with
      | nil => simp [listLtb] at h2
      | cons c ct =>
        simp only [listLtb, Bool.or_eq_true, Bool.and_eq_true, beq_iff_eq,
          decide_eq_true_iff] at *
        rcases h1 with h1 | ⟨rfl, h1⟩ <;> rcases h2 with h2 | ⟨h2, h2t⟩
        · exact Or.inl (lt_trans h1 h2)
        · exact Or.inl (h2 ▸ h1)
        · exact Or.inl h2
        · exact Or.inr ⟨h2, ih _ _ h1 h2t⟩

theorem listLtb_tri : ∀ as bs : List Char,
    listLtb as bs || as == bs || listLtb bs as := by
  intro as
  induction as with
  | nil =>
    intro bs
    cases bs <;> simp [listLtb]
  | cons a at1 ih =>
    intro bs
    cases bs with
    | nil => simp [listLtb]
    | cons b bt =>
      rcases lt_trichotomy a b with h | rfl | h
      · simp [listLtb, h]
      · rcases (by simpa using ih bt :
            (listLtb at1 bt = true ∨ at1 = bt) ∨ listLtb bt at1 = true) with (h3 | h3) | h3
        · simp [listLtb, h3]
        · subst h3; simp
        · simp [listLtb, h3]
      · simp [listLtb, h]

theorem strLtb_trans : ∀ a b c, strLtb a b → strLtb b c → strLtb a c := by
  intro a b c
  exact listLtb_trans a.toList b.toList c.toList

theorem strLtb_tri : ∀ a b, strLtb a b || a == b || strLtb b a := by
  intro a b
  simp only [Bool.or_eq_true, beq_iff_eq]
  rcases (by simpa using listLtb_tri a.toList b.toList :
      (listLtb a.toList b.toList = true ∨ a.toList = b.toList) ∨
        listLtb b.toList a.toList = true) with (h | h) | h
  · exact Or.inl (Or.inl h)
  · refine Or.inl (Or.inr ?_)
    cases a; cases b
    exact congrArg String.mk (by simpa [String.toList] using h)
  · exact Or.inr h

theorem strLeb_trans : ∀ a b c, strLeb a b → strLeb b c → strLeb a c := by
  intro a b c h1 h2
  rcases (by simpa [strLeb] using h1 : strLtb a b = true ∨ a = b) with h1 | h1 <;>
    rcases (by simpa [strLeb] using h2 : strLtb b c = true ∨ b = c) with h2 | h2
  · simp [strLeb, strLtb_trans _ _ _ h1 h2]
  · subst h2; simp [strLeb, h1]
  · subst h1; simp [strLeb, h2]
  · subst h1; subst h2; simp [strLeb]

theorem strLeb_total : ∀ a b, strLeb a b || strLeb b a := by
  intro a b
  rcases (by simpa using strLtb_tri a b :
      (strLtb a b = true ∨ a = b) ∨ strLtb b a = true) with (h | h) | h
  · simp [strLeb, h]
  · subst h; simp [strLeb]
  · simp [strLeb, h]

theorem due_asc_le_trans : ∀ a b c, due_asc_le a b → due_asc_le b c → due_asc_le a c :=
  fun a b c => lexb_trans boolLtb_trans (lexb_trans dateLtb_trans strLeb_trans)
    (due_asc_key a) (due_asc_key b) (due_asc_key c)

theorem due_asc_le_total : ∀ a b, due_asc_le a b || due_asc_le b a :=
  fun a b => lexb_total boolLtb_tri (lexb_total dateLtb_tri strLeb_total)
    (due_asc_key a) (due_asc_key b)

theorem due_desc_le_trans : ∀ a b c, due_desc_le a b → due_desc_le b c → due_desc_le a c :=
  fun a b c => lexb_trans boolLtb_trans (lexb_trans intLtb_trans strLeb_trans)
    (due_desc_key a) (due_desc_key b) (due_desc_key c)

theorem due_desc_le_total : ∀ a b, due_desc_le a b || due_desc_le b a :=
  fun a b => lexb_total boolLtb_tri (lexb_total intLtb_tri strLeb_total)
    (due_desc_key a) (due_desc_key b)

theorem status_le_trans : ∀ a b c, status_le a b → status_le b c → status_le a c :=
  fun a b c => lexb_trans boolLtb_trans strLeb_trans
    (status_key a) (status_key b) (status_key c)

theorem status_le_total : ∀ a b, status_le a b || status_le b a :=
  fun a b => lexb_total boolLtb_tri strLeb_total (status_key a) (status_key b)

theorem created_le_trans : ∀ a b c, created_le a b → created_le b c → created_le a c :=
  fun a b c h1 h2 => strLeb_trans a.created_at b.created_at c.created_at h1 h2

theorem created_le_total : ∀ a b, created_le a b || created_le b a :=
  fun a b => strLeb_total a.created_at b.created_at

theorem created_ge_trans : ∀ a b c, created_ge a b → created_ge b c → created_ge a c :=
  fun a b c h1 h2 => strLeb_trans c.created_at b.created_at a.created_at h2 h1

theorem created_ge_total : ∀ a b, created_ge a b || created_ge b a :=
  fun a b => strLeb_total b.created_at a.created_at

/-- Stability of the sort, in filter form: if every pair of tasks selected by
`p` is tied under the comparator, the selected tasks appear in the output in
exactly their input order. -/
theorem mergeSort_filter_of_tied {α : Type} (le : α → α → Bool)
    (htrans : ∀ a b c, le a b → le b c → le a c)
    (htotal : ∀ a b, le a b || le b a)
    (p : α → Bool) (l : List α)
    (tied : ∀ a ∈ l, ∀ b ∈ l, p a → p b → le a b) :
    (l.mergeSort le).filter p = l.filter p := by
  have hperm : (l.filter p).Perm ((l.mergeSort le).filter p) :=
    ((List.mergeSort_perm l le).symm).filter p
  have hpair : List.Pairwise (fun a b => le a b = true) (l.filter p) := by
    apply List.pairwise_of_forall_mem_list
    intro a ha b hb
    rw [List.mem_filter] at ha hb
    exact tied a ha.1 b hb.1 ha.2 hb.2
  have hsub : (l.filter p).Sublist (l.mergeSort le) :=
    List.sublist_mergeSort htrans htotal hpair (List.filter_sublist l)
  have hidem : List.filter p (List.filter p l) = List.filter p l := by
    rw [List.filter_filter]
    simp
  have hsub2 : (l.filter p).Sublist ((l.mergeSort le).filter p) := by
    have h := List.Sublist.filter p hsub
    rwa [hidem] at h
  exact (hsub2.eq_of_length hperm.length_eq).symm

namespace Run

/-- The 8-tuple returned by `apply_filters` in `run.py`. -/
structure Filters where
  filtered : List TaskRec
  active : List String
  errors : List String
  status : String
  q : String
  due : String
  due_from : String
  due_to : String

/-- Status normalization in `run.py`: `(status or "all").strip().lower()`. -/
def norm_status (status : String) : String :=
  py_lower (py_strip (if status = "" then "all" else status))

/-- The status stage of `run.py`: keeps tasks whose completion flag matches
the requested status; any other status value is a no-op. -/
def status_filter (status1 : String) (tasks : List TaskRec) : List TaskRec :=
  if status1 = "complete" ∨ status1 = "incomplete" then
    tasks.filter (fun t => (t.status == "complete") == (status1 == "complete"))
  else tasks

/-- Output of the status and search stages of `run.py` `apply_filters`,
before any due-date filtering. -/
def pre_due (tasks : List TaskRec) (status q : String) : List TaskRec :=
  search_filter (py_strip q) (status_filter (norm_status status) tasks)

/-- The active-filter label of the range branch. -/
def range_active_msg : Option Date → Option Date → String
  | some f, some g => "Due: " ++ date_iso f ++ " → " ++ date_iso g
  | some f, none => "Due: from " ++ date_iso f
  | none, some g => "Due: up to " ++ date_iso g
  | none, none => ""

/-- The parse-error warnings of the date section of `run.py` `apply_filters`,
in the order the source appends them. -/
def date_errors (due1 from1 to1 : String)
    (due_dt from_dt to_dt : Option Date) : List String :=
  (if due1 ≠ "" ∧ due_dt = none
   then ["Due date filter must be a valid date."] else [])
  ++ (if from1 ≠ "" ∧ from_dt = none
      then ["From date must be a valid date."] else [])
  ++ (if to1 ≠ "" ∧ to_dt = none
      then ["To date must be a valid date."] else [])

/-- The reversed-range error of `run.py`: emitted only when no valid exact
date was supplied and both bounds parse with From after To. -/
def reversed_error (due_dt from_dt to_dt : Option Date) : List String :=
  match due_dt with
  | some _ => []
  | none =>
    if reversed_range from_dt to_dt then
      ["Due date range is invalid: From is after To."]
    else []

/-- The due-date stage of `run.py` `apply_filters`: a valid exact date wins
and keeps exactly the tasks with that due date; otherwise, when a bound is
present, a reversed range skips filtering entirely and a proper range keeps
the tasks inside it. -/
def due_stage (due_dt from_dt to_dt : Option Date) (l : List TaskRec) :
    List TaskRec :=
  match due_dt with
  | some d => l.filter (fun t => parse_date_yyyy_mm_dd t.due_date == some d)
  | none =>
    if from_dt.isSome || to_dt.isSome then
      if reversed_range from_dt to_dt then l
      else l.filter (in_range from_dt to_dt)
    else l

/-- The active-filter labels contributed by the date section of `run.py`. -/
def due_active (due_dt from_dt to_dt : Option Date) : List String :=
  match due_dt with
  | some d => ["Due: " ++ date_iso d]
  | none =>
    if from_dt.isSome || to_dt.isSome then
      if reversed_range from_dt to_dt then []
      else [range_active_msg from_dt to_dt]
    else []

/-- Embedding of `apply_filters` from `run.py`. All five parameters are
trimmed first; a valid exact date wins over the range bounds; a reversed
range is reported as an error and the range filter is skipped. -/
def apply_filters (tasks : List TaskRec)
    (status q due due_from due_to : String) : Filters :=
  let status1 := norm_status status
  let q1 := py_strip q
  let due1 := py_strip due
  let from1 := py_strip due_from
  let to1 := py_strip due_to
  let due_dt := if due1 = "" then none else parse_date_yyyy_mm_dd due1
  let from_dt := if from1 = "" then none else parse_date_yyyy_mm_dd from1
  let to_dt := if to1 = "" then none else parse_date_yyyy_mm_dd to1
  { filtered := due_stage due_dt from_dt to_dt (pre_due tasks status q)
    active :=
      ((if status1 = "complete" ∨ status1 = "incomplete"
        then ["Status: " ++ py_capitalize status1] else [])
       ++ (if q1 = "" then [] else ["Search: “" ++ q1 ++ "”"]))
      ++ due_active due_dt from_dt to_dt
    errors := date_errors due1 from1 to1 due_dt from_dt to_dt
             ++ reversed_error due_dt from_dt to_dt
    status := if status1 = "complete" ∨ status1 = "incomplete" then status1 else "all"
    q := q1, due := due1, due_from := from1, due_to := to1 }

end Run

namespace Routes

/-- The status stage of `routes.py`: a missing status field defaults to
`"incomplete"` before comparison; unrecognized status values are a no-op. -/
def status_filter (status1 : String) (tasks : List TaskRec) : List TaskRec :=
  if status1 = "complete" ∨ status1 = "incomplete" then
    tasks.filter (fun t => (if t.status = "" then "incomplete" else t.status) == status1)
  else tasks

/-- Output of the status and search stages of `routes.py` `apply_filters`,
before any due-date filtering. `routes.py` lowercases the status without
trimming it. -/
def pre_due (tasks : List TaskRec) (status q : String) : List TaskRec :=
  search_filter (py_strip q) (status_filter (py_lower (if status = "" then "all" else status)) tasks)

/-- The flash warnings of the date section of `routes.py` `apply_filters`,
in the order the source emits them. -/
def date_msgs (due due_from due_to : String)
    (exact frm0 to0 : Option Date) : List String :=
  (if due ≠ "" ∧ exact = none
   then ["Invalid exact due date filter. Please choose a valid date."] else [])
  ++ (if due_from ≠ "" ∧ frm0 = none
      then ["Invalid \x27From\x27 due date. Please choose a valid date."] else [])
  ++ (if due_to ≠ "" ∧ to0 = none
      then ["Invalid \x27To\x27 due date. Please choose a valid date."] else [])

/-- The swap notice of `routes.py`, emitted when both bounds parse reversed. -/
def swap_msg (swapped : Bool) : List String :=
  if swapped then ["Due date range was reversed. Swapping From/To."] else []

/-- The due-date stage of `routes.py` `apply_filters`, applied after the
bounds have been swapped into order: a valid exact date wins; otherwise a
present bound activates the inclusive range filter. -/
def due_stage (exact frm to1 : Option Date) (l : List TaskRec) : List TaskRec :=
  match exact with
  | some d => l.filter (fun t => parse_date_yyyy_mm_dd t.due_date == some d)
  | none =>
    if frm.isSome || to1.isSome then l.filter (in_range frm to1)
    else l

/-- Embedding of `apply_filters` from `routes.py`. Warnings are delivered via
`flash`; the embedding accumulates them in the returned message list. Date
parameters are parsed untrimmed; a reversed valid range is swapped (with a
message) before filtering; a valid exact date wins over the range bounds. -/
def apply_filters (tasks : List TaskRec)
    (status q due due_from due_to : String) : List TaskRec × List String :=
  let exact := parse_date_yyyy_mm_dd due
  let frm0 := parse_date_yyyy_mm_dd due_from
  let to0 := parse_date_yyyy_mm_dd due_to
  let swapped := reversed_range frm0 to0
  let frm := if swapped then to0 else frm0
  let to1 := if swapped then frm0 else to0
  (due_stage exact frm to1 (pre_due tasks status q),
   date_msgs due due_from due_to exact frm0 to0 ++ swap_msg swapped)

end Routes

/-- C10: `compute_stats` returns a triple `(total, complete, incomplete)` with
`total` the length of the list, `complete` the number of tasks whose status is
exactly `"complete"`, and `incomplete = total - complete`; consequently
`total = complete + incomplete`, and every task whose status holds any other
value (including values outside the enum, or a missing field read as `""`)
is counted as incomplete. -/
theorem compute_stats_spec (tasks : List TaskRec) :
    (compute_stats tasks).1 = tasks.length ∧
    (compute_stats tasks).2.1 =
      (tasks.filter (fun t => t.status == "complete")).length ∧
    (compute_stats tasks).2.2 = (compute_stats tasks).1 - (compute_stats tasks).2.1 ∧
    (compute_stats tasks).1 = (compute_stats tasks).2.1 + (compute_stats tasks).2.2 ∧
    (compute_stats tasks).2.2 =
      (tasks.filter (fun t => t.status != "complete")).length := by
  have hc : (tasks.filter (fun t => t.status == "complete")).length ≤ tasks.length :=
    List.length_filter_le _ _
  have hsplit : (tasks.filter (fun t => t.status == "complete")).length +
      (tasks.filter (fun t => t.status != "complete")).length = tasks.length := by
    have h := List.length_eq_length_filter_add (l := tasks)
      (fun t => t.status == "complete")
    simp only [bne] at *
    omega
  have e1 : (compute_stats tasks).1 = tasks.length := rfl
  have e2 : (compute_stats tasks).2.1 =
      (tasks.filter (fun t => t.status == "complete")).length := rfl
  have e3 : (compute_stats tasks).2.2 =
      tasks.length - (tasks.filter (fun t => t.status == "complete")).length := rfl
  refine ⟨rfl, rfl, ?_, ?_, ?_⟩ <;> simp only [e1, e2, e3] <;> omega

/-- C6 counterexample: a file whose content is the well-formed JSON document
`{}` (top-level shape a mapping, not a sequence) is not treated as the empty
collection: `load_tasks` returns the mapping unchanged, because the source
only catches `JSONDecodeError` and never validates the document's shape. -/
theorem load_nonsequence_counterexample :
    load_tasks (ReadResult.content (Json.obj [])) = Json.obj [] ∧
    load_tasks (ReadResult.content (Json.obj [])) ≠ Json.arr [] ∧
    load_users (ReadResult.content (Json.num 7)) = Json.num 7 ∧
    load_users (ReadResult.content (Json.num 7)) ≠ Json.arr [] := by
  refine ⟨rfl, ?_, rfl, ?_⟩ <;> intro h <;> exact Json.noConfusion h

/-- C6 (amended): loading the users collection or a user's task collection
yields the empty collection for a missing file and for a malformed document
(`JSONDecodeError` swallowed), but a well-formed document is returned as-is
whatever its top-level shape — a non-sequence top level is not converted to
the empty collection. -/
theorem load_best_effort_empty (v : Json) :
    load_tasks ReadResult.missing = Json.arr [] ∧
    load_tasks ReadResult.malformed = Json.arr [] ∧
    load_tasks (ReadResult.content v) = v ∧
    load_users ReadResult.missing = Json.arr [] ∧
    load_users ReadResult.malformed = Json.arr [] ∧
    load_users (ReadResult.content v) = v :=
  ⟨rfl, rfl, rfl, rfl, rfl, rfl⟩

/-- C7: the post-login redirect in `login_post` replaces any target beginning
with `http://` or `https://` by the default landing destination
(`url_for("home_page")`), and uses any other non-empty target verbatim, so
the user resumes at the originally requested path. -/
theorem login_redirect_rejects_absolute (home next : String) :
    ((starts_with next "http://" ∨ starts_with next "https://") →
      login_next_url home next = home) ∧
    (next ≠ "" → ¬(starts_with next "http://" ∨ starts_with next "https://") →
      login_next_url home next = next) := by
  constructor
  · intro hs
    have hne : next ≠ "" := by
      rintro rfl
      rcases hs with h | h <;> exact absurd h (by decide)
    unfold login_next_url
    rcases hs with h | h <;> simp [hne, h]
  · intro hne hns
    rw [not_or] at hns
    unfold login_next_url
    simp only [Bool.not_eq_true] at hns
    simp [hne, hns.1, hns.2]

/-- C7 witness: a scheme-bearing target is replaced by the home URL and a
relative target is used verbatim, at concrete inputs. -/
theorem login_redirect_rejects_absolute_witness :
    login_next_url "/home" "https://evil.example/steal" = "/home" ∧
    login_next_url "/home" "/tasks/3" = "/tasks/3" :=
  ⟨(login_redirect_rejects_absolute "/home" "https://evil.example/steal").1
      (Or.inr (by decide)),
   (login_redirect_rejects_absolute "/home" "/tasks/3").2
      (by decide) (by decide)⟩

theorem flip_flip (s : String) (hs : s = "incomplete" ∨ s = "complete") :
    flip_status (flip_status s) = s := by
  rcases hs with rfl | rfl <;> decide

theorem find_task_cons (hd : TaskRec) (tl : List TaskRec) (i : Int) :
    find_task (hd :: tl) i =
      if (hd.id == i) = true then some hd else find_task tl i := by
  by_cases h : (fun t : TaskRec => t.id == i) hd = true
  · rw [find_task, List.find?_cons_of_pos tl h, if_pos h]
  · rw [find_task, List.find?_cons_of_neg tl h, if_neg h, find_task]

theorem toggle_first_cons (hd : TaskRec) (tl : List TaskRec) (i : Int) :
    toggle_first (hd :: tl) i =
      if (hd.id == i) = true then
        { hd with status := flip_status hd.status } :: tl
      else hd :: toggle_first tl i := rfl

theorem find_task_toggle_first (tasks : List TaskRec) (i : Int) (t : TaskRec)
    (hf : find_task tasks i = some t) :
    find_task (toggle_first tasks i) i =
      some { t with status := flip_status t.status } := by
  induction tasks with
  | nil => simp [find_task] at hf
  | cons hd tl ih =>
    rw [find_task_cons] at hf
    by_cases h : (hd.id == i) = true
    · rw [if_pos h] at hf
      injection hf with hf
      subst hf
      rw [toggle_first_cons, if_pos h, find_task_cons, if_pos h]
    · rw [if_neg h] at hf
      rw [toggle_first_cons, if_neg h, find_task_cons, if_neg h]
      exact ih hf

theorem toggle_first_twice (tasks : List TaskRec) (i : Int) (t : TaskRec)
    (hf : find_task tasks i = some t)
    (hs : t.status = "incomplete" ∨ t.status = "complete") :
    toggle_first (toggle_first tasks i) i = tasks := by
  induction tasks with
  | nil => simp [find_task] at hf
  | cons hd tl ih =>
    rw [find_task_cons] at hf
    by_cases h : (hd.id == i) = true
    · rw [if_pos h] at hf
      injection hf with hf
      subst hf
      rw [toggle_first_cons, if_pos h, toggle_first_cons, if_pos h]
      simp [flip_flip _ hs]
    · rw [if_neg h] at hf
      rw [toggle_first_cons, if_neg h, toggle_first_cons, if_neg h, ih hf]

/-- C8: for a task present in the collection whose status is one of the two
enum values, a toggle succeeds and flips `incomplete` to `complete` and
`complete` to `incomplete`, and toggling the same id twice in succession
returns the persisted collection to exactly its original state. -/
theorem toggle_task_involution (tasks : List TaskRec) (i : Int) (t : TaskRec)
    (hf : find_task tasks i = some t)
    (hs : t.status = "incomplete" ∨ t.status = "complete") :
    toggle_task tasks i = some (toggle_first tasks i) ∧
    find_task (toggle_first tasks i) i =
      some { t with status := flip_status t.status } ∧
    (t.status = "incomplete" → flip_status t.status = "complete") ∧
    (t.status = "complete" → flip_status t.status = "incomplete") ∧
    toggle_task (toggle_first tasks i) i = some tasks := by
  have h2 := find_task_toggle_first tasks i t hf
  refine ⟨by simp only [toggle_task, hf], h2, ?_, ?_, ?_⟩
  · intro h; rw [h]; decide
  · intro h; rw [h]; decide
  · simp only [toggle_task, h2]
    exact congrArg some (toggle_first_twice tasks i t hf hs)

/-- C8 witness: the toggle involution at a concrete two-task collection. -/
theorem toggle_task_involution_witness :
    toggle_task [⟨1, "a", "", "incomplete", "", "T1"⟩, ⟨2, "b", "", "complete", "", "T2"⟩] 2 =
      some (toggle_first [⟨1, "a", "", "incomplete", "", "T1"⟩, ⟨2, "b", "", "complete", "", "T2"⟩] 2) ∧
    find_task (toggle_first [⟨1, "a", "", "incomplete", "", "T1"⟩, ⟨2, "b", "", "complete", "", "T2"⟩] 2) 2 =
      some { (⟨2, "b", "", "complete", "", "T2"⟩ : TaskRec) with
               status := flip_status "complete" } ∧
    (("complete" : String) = "incomplete" → flip_status "complete" = "complete") ∧
    (("complete" : String) = "complete" → flip_status "complete" = "incomplete") ∧
    toggle_task (toggle_first [⟨1, "a", "", "incomplete", "", "T1"⟩, ⟨2, "b", "", "complete", "", "T2"⟩] 2) 2 =
      some [⟨1, "a", "", "incomplete", "", "T1"⟩, ⟨2, "b", "", "complete", "", "T2"⟩] :=
  toggle_task_involution
    [⟨1, "a", "", "incomplete", "", "T1"⟩, ⟨2, "b", "", "complete", "", "T2"⟩] 2
    ⟨2, "b", "", "complete", "", "T2"⟩ (by decide) (Or.inr rfl)

theorem foldl_max_le_init : ∀ (xs : List Int) (a : Int), a ≤ xs.foldl max a := by
  intro xs
  induction xs with
  | nil => intro a; exact le_refl a
  | cons b bs ih =>
    intro a
    simp only [List.foldl_cons]
    exact le_trans (le_max_left a b) (ih (max a b))

theorem foldl_max_of_mem : ∀ (xs : List Int) (a x : Int), x ∈ xs → x ≤ xs.foldl max a := by
  intro xs
  induction xs with
  | nil => intro a x h; simp at h
  | cons b bs ih =>
    intro a x h
    simp only [List.foldl_cons]
    rcases List.mem_cons.mp h with rfl | h
    · exact le_trans (le_max_right a x) (foldl_max_le_init bs (max a x))
    · exact ih (max a b) x h

theorem next_id_gt (tasks : List TaskRec) : ∀ t ∈ tasks, t.id < next_id tasks := by
  intro t ht
  cases tasks with
  | nil => simp at ht
  | cons hd tl =>
    simp only [next_id, List.map_cons]
    rcases List.mem_cons.mp ht with rfl | ht
    · have h := foldl_max_le_init (tl.map (fun t => t.id)) t.id
      omega
    · have h := foldl_max_of_mem (tl.map (fun t => t.id)) hd.id t.id
        (List.mem_map_of_mem _ ht)
      omega

/-- C9: on a collection with pairwise-distinct task ids, a successful
`add_task` appends exactly one record whose id is `next_id` (the Python
`max(existing, default 0) + 1`) and whose status is `"incomplete"`; the new
id is strictly greater than every existing id, so per-user id uniqueness is
preserved. -/
theorem add_task_preserves_unique_ids (tasks : List TaskRec)
    (title memo due now : String) (tasks' : List TaskRec)
    (hnd : (tasks.map (fun t => t.id)).Nodup)
    (h : add_task tasks title memo due now = some tasks') :
    tasks' = tasks ++ [{ id := next_id tasks, title := py_strip title,
                         memo := py_strip memo, status := "incomplete",
                         due_date := py_strip due, created_at := now }] ∧
    (∀ t ∈ tasks, t.id < next_id tasks) ∧
    (tasks'.map (fun t => t.id)).Nodup := by
  have hgt := next_id_gt tasks
  simp only [add_task] at h
  split_ifs at h with h1 h2
  injection h with h
  subst h
  refine ⟨rfl, hgt, ?_⟩
  have hnotmem : next_id tasks ∉ tasks.map (fun t => t.id) := by
    intro hmem
    obtain ⟨t, ht, hid⟩ := List.mem_map.mp hmem
    have := hgt t ht
    omega
  simp only [List.map_append, List.map_cons, List.map_nil, List.nodup_append]
  exact ⟨hnd, List.nodup_singleton _, by
    intro x hx hx1
    simp only [List.mem_singleton] at hx1
    subst hx1
    exact hnotmem hx⟩

/-- C9 witness: adding to a concrete two-task collection assigns id 3 and
keeps ids unique. -/
theorem add_task_preserves_unique_ids_witness :
    [(⟨1, "a", "", "incomplete", "", "T1"⟩ : TaskRec), ⟨2, "b", "", "complete", "", "T2"⟩,
       ⟨3, "New task", "", "incomplete", "2024-01-05", "T3"⟩] =
      [(⟨1, "a", "", "incomplete", "", "T1"⟩ : TaskRec), ⟨2, "b", "", "complete", "", "T2"⟩] ++
        [{ id := next_id [(⟨1, "a", "", "incomplete", "", "T1"⟩ : TaskRec), ⟨2, "b", "", "complete", "", "T2"⟩],
           title := py_strip "New task", memo := py_strip "",
           status := "incomplete", due_date := py_strip "2024-01-05",
           created_at := "T3" }] ∧
    (∀ t ∈ [(⟨1, "a", "", "incomplete", "", "T1"⟩ : TaskRec), ⟨2, "b", "", "complete", "", "T2"⟩],
      t.id < next_id [(⟨1, "a", "", "incomplete", "", "T1"⟩ : TaskRec), ⟨2, "b", "", "complete", "", "T2"⟩]) ∧
    (([(⟨1, "a", "", "incomplete", "", "T1"⟩ : TaskRec), ⟨2, "b", "", "complete", "", "T2"⟩,
       ⟨3, "New task", "", "incomplete", "2024-01-05", "T3"⟩]).map (fun t => t.id)).Nodup :=
  add_task_preserves_unique_ids
    [⟨1, "a", "", "incomplete", "", "T1"⟩, ⟨2, "b", "", "complete", "", "T2"⟩]
    "New task" "" "2024-01-05" "T3"
    [⟨1, "a", "", "incomplete", "", "T1"⟩, ⟨2, "b", "", "complete", "", "T2"⟩,
       ⟨3, "New task", "", "incomplete", "2024-01-05", "T3"⟩]
    (by decide) (by decide)

theorem py_strip_empty : py_strip "" = "" := rfl

theorem parse_date_empty : parse_date_yyyy_mm_dd "" = none := rfl

/-- C1: in both revisions, when the exact `due` parameter parses (run.py
parses it after trimming, routes.py verbatim), `apply_filters` keeps, out of
the tasks surviving the status and search stages, exactly those whose due
date parses equal to the exact date — and the `due_from`/`due_to` bounds have
no effect on the filtered result, which equals the result computed with both
bounds absent. -/
theorem exact_due_overrides_range
    (tasks : List TaskRec) (status q due due_from due_to : String) (d : Date) :
    (parse_date_yyyy_mm_dd (py_strip due) = some d →
      (Run.apply_filters tasks status q due due_from due_to).filtered =
        (Run.pre_due tasks status q).filter
          (fun t => parse_date_yyyy_mm_dd t.due_date == some d) ∧
      (Run.apply_filters tasks status q due due_from due_to).filtered =
        (Run.apply_filters tasks status q due "" "").filtered) ∧
    (parse_date_yyyy_mm_dd due = some d →
      (Routes.apply_filters tasks status q due due_from due_to).1 =
        (Routes.pre_due tasks status q).filter
          (fun t => parse_date_yyyy_mm_dd t.due_date == some d) ∧
      (Routes.apply_filters tasks status q due due_from due_to).1 =
        (Routes.apply_filters tasks status q due "" "").1) := by
  constructor
  · intro h
    have hne : ¬(py_strip due = "") := by
      intro he
      rw [he, parse_date_empty] at h
      exact Option.noConfusion h
    constructor <;>
      simp only [Run.apply_filters, hne, if_neg, if_false, h, py_strip_empty,
        ite_self, Run.due_stage]
  · intro h
    constructor <;>
      simp only [Routes.apply_filters, h, parse_date_empty, Routes.due_stage]

/-- C1 witness: at a concrete task list and parameter set where the exact due
date and both range bounds parse, and the bounds would narrow further. -/
theorem exact_due_overrides_range_witness :
    ((Run.apply_filters
        [⟨1, "a", "", "incomplete", "2024-01-10", "T1"⟩,
         ⟨2, "b", "", "incomplete", "2024-01-05", "T2"⟩]
        "all" "" "2024-01-10" "2024-01-01" "2024-01-06").filtered =
      (Run.pre_due
        [⟨1, "a", "", "incomplete", "2024-01-10", "T1"⟩,
         ⟨2, "b", "", "incomplete", "2024-01-05", "T2"⟩] "all" "").filter
        (fun t => parse_date_yyyy_mm_dd t.due_date ==
          some { year := 2024, month := 1, day := 10 }) ∧
     (Run.apply_filters
        [⟨1, "a", "", "incomplete", "2024-01-10", "T1"⟩,
         ⟨2, "b", "", "incomplete", "2024-01-05", "T2"⟩]
        "all" "" "2024-01-10" "2024-01-01" "2024-01-06").filtered =
      (Run.apply_filters
        [⟨1, "a", "", "incomplete", "2024-01-10", "T1"⟩,
         ⟨2, "b", "", "incomplete", "2024-01-05", "T2"⟩]
        "all" "" "2024-01-10" "" "").filtered) ∧
    ((Routes.apply_filters
        [⟨1, "a", "", "incomplete", "2024-01-10", "T1"⟩,
         ⟨2, "b", "", "incomplete", "2024-01-05", "T2"⟩]
        "all" "" "2024-01-10" "2024-01-01" "2024-01-06").1 =
      (Routes.pre_due
        [⟨1, "a", "", "incomplete", "2024-01-10", "T1"⟩,
         ⟨2, "b", "", "incomplete", "2024-01-05", "T2"⟩] "all" "").filter
        (fun t => parse_date_yyyy_mm_dd t.due_date ==
          some { year := 2024, month := 1, day := 10 }) ∧
     (Routes.apply_filters
        [⟨1, "a", "", "incomplete", "2024-01-10", "T1"⟩,
         ⟨2, "b", "", "incomplete", "2024-01-05", "T2"⟩]
        "all" "" "2024-01-10" "2024-01-01" "2024-01-06").1 =
      (Routes.apply_filters
        [⟨1, "a", "", "incomplete", "2024-01-10", "T1"⟩,
         ⟨2, "b", "", "incomplete", "2024-01-05", "T2"⟩]
        "all" "" "2024-01-10" "" "").1) :=
  ⟨(exact_due_overrides_range
      [⟨1, "a", "", "incomplete", "2024-01-10", "T1"⟩,
       ⟨2, "b", "", "incomplete", "2024-01-05", "T2"⟩]
      "all" "" "2024-01-10" "2024-01-01" "2024-01-06"
      { year := 2024, month := 1, day := 10 }).1 (by decide),
   (exact_due_overrides_range
      [⟨1, "a", "", "incomplete", "2024-01-10", "T1"⟩,
       ⟨2, "b", "", "incomplete", "2024-01-05", "T2"⟩]
      "all" "" "2024-01-10" "2024-01-01" "2024-01-06"
      { year := 2024, month := 1, day := 10 }).2 (by decide)⟩

/-- C2 counterexample: the whitespace-only exact due string `" "` is
non-empty and does not parse as a date, yet `run.py`'s `apply_filters`
produces no warning at all for it — the field is trimmed to empty and treated
as absent, contradicting "each such string produces exactly one warning". -/
theorem invalid_due_warning_counterexample :
    (" " : String) ≠ "" ∧
    parse_date_yyyy_mm_dd " " = none ∧
    (Run.apply_filters [] "all" "" " " "" "").errors = [] :=
  ⟨by decide, rfl, by decide⟩

theorem reversed_range_none_left (x : Option Date) : reversed_range none x = false := by
  cases x <;> rfl

theorem reversed_range_none_right (x : Option Date) : reversed_range x none = false := by
  cases x <;> rfl

/-- C2 (amended): a caller-supplied date string that does not parse never
raises an error — the embedding is total and the string is ignored for
filtering, with exactly one human-readable warning recorded for it. In
`routes.py` this holds for every non-empty unparseable string; `run.py`
trims each field first, so it holds for strings that are non-empty after
trimming (a whitespace-only string is treated as absent and produces no
warning — see the counterexample). In both revisions an unparseable exact
`due` leaves the filtered result as if no exact due filter had been
supplied. -/
theorem invalid_dates_warn_and_are_ignored
    (tasks : List TaskRec) (status q due due_from due_to : String) :
    ((py_strip due ≠ "" → parse_date_yyyy_mm_dd (py_strip due) = none →
      (Run.apply_filters tasks status q due due_from due_to).errors.count
          "Due date filter must be a valid date." = 1 ∧
      (Run.apply_filters tasks status q due due_from due_to).filtered =
        (Run.apply_filters tasks status q "" due_from due_to).filtered) ∧
     (py_strip due_from ≠ "" → parse_date_yyyy_mm_dd (py_strip due_from) = none →
      (Run.apply_filters tasks status q due due_from due_to).errors.count
          "From date must be a valid date." = 1 ∧
      (Run.apply_filters tasks status q due due_from due_to).filtered =
        (Run.apply_filters tasks status q due "" due_to).filtered) ∧
     (py_strip due_to ≠ "" → parse_date_yyyy_mm_dd (py_strip due_to) = none →
      (Run.apply_filters tasks status q due due_from due_to).errors.count
          "To date must be a valid date." = 1 ∧
      (Run.apply_filters tasks status q due due_from due_to).filtered =
        (Run.apply_filters tasks status q due due_from "").filtered)) ∧
    ((due ≠ "" → parse_date_yyyy_mm_dd due = none →
      (Routes.apply_filters tasks status q due due_from due_to).2.count
          "Invalid exact due date filter. Please choose a valid date." = 1 ∧
      (Routes.apply_filters tasks status q due due_from due_to).1 =
        (Routes.apply_filters tasks status q "" due_from due_to).1) ∧
     (due_from ≠ "" → parse_date_yyyy_mm_dd due_from = none →
      (Routes.apply_filters tasks status q due due_from due_to).2.count
          "Invalid \x27From\x27 due date. Please choose a valid date." = 1 ∧
      (Routes.apply_filters tasks status q due due_from due_to).1 =
        (Routes.apply_filters tasks status q due "" due_to).1) ∧
     (due_to ≠ "" → parse_date_yyyy_mm_dd due_to = none →
      (Routes.apply_filters tasks status q due due_from due_to).2.count
          "Invalid \x27To\x27 due date. Please choose a valid date." = 1 ∧
      (Routes.apply_filters tasks status q due due_from due_to).1 =
        (Routes.apply_filters tasks status q due due_from "").1)) := by
  refine ⟨⟨fun hne hp => ⟨?_, ?_⟩, fun hne hp => ⟨?_, ?_⟩, fun hne hp => ⟨?_, ?_⟩⟩,
          ⟨fun hne hp => ⟨?_, ?_⟩, fun hne hp => ⟨?_, ?_⟩, fun hne hp => ⟨?_, ?_⟩⟩⟩
  · simp only [Run.apply_filters, Run.date_errors, Run.reversed_error, hp, hne,
      ite_self, ne_eq, not_false_iff, and_true, true_and, if_true,
      List.count_append]
    split_ifs <;> (try split) <;>
      simp [List.count_singleton, List.count_nil, List.count_cons]
  · simp only [Run.apply_filters, hp, ite_self, py_strip_empty, parse_date_empty]
  · simp only [Run.apply_filters, Run.date_errors, Run.reversed_error, hp, hne,
      ite_self, ne_eq, not_false_iff, and_true, true_and, if_true,
      List.count_append]
    split_ifs <;> (try split) <;>
      simp [List.count_singleton, List.count_nil, List.count_cons]
  · simp only [Run.apply_filters, hp, ite_self, py_strip_empty, parse_date_empty]
  · simp only [Run.apply_filters, Run.date_errors, Run.reversed_error, hp, hne,
      ite_self, ne_eq, not_false_iff, and_true, true_and, if_true,
      List.count_append]
    split_ifs <;> (try split) <;>
      simp [List.count_singleton, List.count_nil, List.count_cons]
  · simp only [Run.apply_filters, hp, ite_self, py_strip_empty, parse_date_empty]
  · simp only [Routes.apply_filters, Routes.date_msgs, Routes.swap_msg, hp, hne,
      ite_self, ne_eq, not_false_iff, and_true, true_and, if_true,
      List.count_append]
    split_ifs <;> (try split) <;>
      simp [List.count_singleton, List.count_nil, List.count_cons]
  · simp only [Routes.apply_filters, hp, parse_date_empty]
  · simp only [Routes.apply_filters, Routes.date_msgs, Routes.swap_msg, hp, hne,
      reversed_range_none_left, ite_self, ne_eq, not_false_iff, and_true,
      true_and, if_true, List.count_append]
    split_ifs <;> (try split) <;>
      simp [List.count_singleton, List.count_nil, List.count_cons]
  · simp only [Routes.apply_filters, hp, parse_date_empty, reversed_range_none_left]
  · simp only [Routes.apply_filters, Routes.date_msgs, Routes.swap_msg, hp, hne,
      reversed_range_none_right, ite_self, ne_eq, not_false_iff, and_true,
      true_and, if_true, List.count_append]
    split_ifs <;> (try split) <;>
      simp [List.count_singleton, List.count_nil, List.count_cons]
  · simp only [Routes.apply_filters, hp, parse_date_empty, reversed_range_none_right]

/-- C2 witness: with all three date fields unparseable at concrete inputs,
each field yields exactly one warning and is ignored for filtering, in both
revisions. -/
theorem invalid_dates_warn_and_are_ignored_witness :
    ((Run.apply_filters [] "all" "" "2024-13-01" "bad" "99").errors.count
        "Due date filter must be a valid date." = 1 ∧
     (Run.apply_filters [] "all" "" "2024-13-01" "bad" "99").filtered =
       (Run.apply_filters [] "all" "" "" "bad" "99").filtered) ∧
    ((Run.apply_filters [] "all" "" "2024-13-01" "bad" "99").errors.count
        "From date must be a valid date." = 1 ∧
     (Run.apply_filters [] "all" "" "2024-13-01" "bad" "99").filtered =
       (Run.apply_filters [] "all" "" "2024-13-01" "" "99").filtered) ∧
    ((Run.apply_filters [] "all" "" "2024-13-01" "bad" "99").errors.count
        "To date must be a valid date." = 1 ∧
     (Run.apply_filters [] "all" "" "2024-13-01" "bad" "99").filtered =
       (Run.apply_filters [] "all" "" "2024-13-01" "bad" "").filtered) ∧
    ((Routes.apply_filters [] "all" "" "2024-13-01" "bad" "99").2.count
        "Invalid exact due date filter. Please choose a valid date." = 1 ∧
     (Routes.apply_filters [] "all" "" "2024-13-01" "bad" "99").1 =
       (Routes.apply_filters [] "all" "" "" "bad" "99").1) ∧
    ((Routes.apply_filters [] "all" "" "2024-13-01" "bad" "99").2.count
        "Invalid \x27From\x27 due date. Please choose a valid date." = 1 ∧
     (Routes.apply_filters [] "all" "" "2024-13-01" "bad" "99").1 =
       (Routes.apply_filters [] "all" "" "2024-13-01" "" "99").1) ∧
    ((Routes.apply_filters [] "all" "" "2024-13-01" "bad" "99").2.count
        "Invalid \x27To\x27 due date. Please choose a valid date." = 1 ∧
     (Routes.apply_filters [] "all" "" "2024-13-01" "bad" "99").1 =
       (Routes.apply_filters [] "all" "" "2024-13-01" "bad" "").1) :=
  let h := invalid_dates_warn_and_are_ignored [] "all" "" "2024-13-01" "bad" "99"
  ⟨h.1.1 (by decide) (by decide),
   h.1.2.1 (by decide) (by decide),
   h.1.2.2 (by decide) (by decide),
   h.2.1 (by decide) (by decide),
   h.2.2.1 (by decide) (by decide),
   h.2.2.2 (by decide) (by decide)⟩

/-- C3 counterexample: with a reversed valid range and no exact date, run.py
does not produce an empty-intersection result: a task whose due date lies
outside every possible [from, to] intersection passes through untouched,
because the reversed-range branch skips the range filter entirely. -/
theorem reversed_range_counterexample :
    parse_date_yyyy_mm_dd "2024-12-31" = some { year := 2024, month := 12, day := 31 } ∧
    parse_date_yyyy_mm_dd "2024-01-01" = some { year := 2024, month := 1, day := 1 } ∧
    dateLtb { year := 2024, month := 1, day := 1 } { year := 2024, month := 12, day := 31 } = true ∧
    (Run.apply_filters [⟨1, "t", "", "incomplete", "2024-06-15", "T1"⟩]
        "all" "" "" "2024-12-31" "2024-01-01").filtered =
      [⟨1, "t", "", "incomplete", "2024-06-15", "T1"⟩] ∧
    [(⟨1, "t", "", "incomplete", "2024-06-15", "T1"⟩ : TaskRec)] ≠ [] :=
  ⟨rfl, rfl, rfl, by decide, by decide⟩

/-- C3 (amended): with no valid exact due date and both bounds parsing with
From after To, the two revisions follow different policies: `routes.py`
swaps the bounds (emitting one notice) and filters with the resulting valid
range, while `run.py` reports the reversed range as a user error with one
warning and skips the range filter entirely — the filtered result is the
unrestricted output of the status and search stages, not an empty
intersection. -/
theorem reversed_range_policies
    (tasks : List TaskRec) (status q due due_from due_to : String) (f g : Date) :
    (parse_date_yyyy_mm_dd due = none →
     parse_date_yyyy_mm_dd due_from = some f →
     parse_date_yyyy_mm_dd due_to = some g →
     dateLtb g f = true →
      (Routes.apply_filters tasks status q due due_from due_to).1 =
        (Routes.pre_due tasks status q).filter (in_range (some g) (some f)) ∧
      (Routes.apply_filters tasks status q due due_from due_to).2.count
          "Due date range was reversed. Swapping From/To." = 1) ∧
    (parse_date_yyyy_mm_dd (py_strip due) = none →
     parse_date_yyyy_mm_dd (py_strip due_from) = some f →
     parse_date_yyyy_mm_dd (py_strip due_to) = some g →
     dateLtb g f = true →
      (Run.apply_filters tasks status q due due_from due_to).filtered =
        Run.pre_due tasks status q ∧
      (Run.apply_filters tasks status q due due_from due_to).errors.count
          "Due date range is invalid: From is after To." = 1) := by
  constructor
  · intro h0 h1 h2 h3
    constructor
    · simp only [Routes.apply_filters, Routes.due_stage, h0, h1, h2,
        reversed_range, h3, if_true, Option.isSome_some, Bool.true_or]
    · simp only [Routes.apply_filters, Routes.date_msgs, Routes.swap_msg,
        h0, h1, h2, reversed_range, h3, if_true, List.count_append, and_true,
        and_false, if_false, ne_eq]
      split_ifs <;>
        simp [List.count_singleton, List.count_nil, List.count_cons]
  · intro h0 h1 h2 h3
    have hnef : ¬(py_strip due_from = "") := by
      intro he
      rw [he, parse_date_empty] at h1
      exact Option.noConfusion h1
    have hnet : ¬(py_strip due_to = "") := by
      intro he
      rw [he, parse_date_empty] at h2
      exact Option.noConfusion h2
    constructor
    · simp only [Run.apply_filters, Run.due_stage, h0, h1, h2, hnef, hnet,
        ite_self, if_neg, if_false, reversed_range, h3, if_true,
        Option.isSome_some, Bool.true_or, not_false_iff]
    · simp only [Run.apply_filters, Run.date_errors, Run.reversed_error,
        h0, h1, h2, hnef, hnet, ite_self, if_neg, if_false, reversed_range,
        h3, if_true, List.count_append, and_true, and_false, ne_eq,
        not_false_iff]
      split_ifs <;> (try split) <;>
        simp [List.count_singleton, List.count_nil, List.count_cons]

/-- C3 witness: both policies at a concrete task list and reversed range. -/
theorem reversed_range_policies_witness :
    ((Routes.apply_filters [⟨1, "t", "", "incomplete", "2024-06-15", "T1"⟩]
        "all" "" "" "2024-12-31" "2024-01-01").1 =
      (Routes.pre_due [⟨1, "t", "", "incomplete", "2024-06-15", "T1"⟩] "all" "").filter
        (in_range (some { year := 2024, month := 1, day := 1 })
                  (some { year := 2024, month := 12, day := 31 })) ∧
     (Routes.apply_filters [⟨1, "t", "", "incomplete", "2024-06-15", "T1"⟩]
        "all" "" "" "2024-12-31" "2024-01-01").2.count
        "Due date range was reversed. Swapping From/To." = 1) ∧
    ((Run.apply_filters [⟨1, "t", "", "incomplete", "2024-06-15", "T1"⟩]
        "all" "" "" "2024-12-31" "2024-01-01").filtered =
      Run.pre_due [⟨1, "t", "", "incomplete", "2024-06-15", "T1"⟩] "all" "" ∧
     (Run.apply_filters [⟨1, "t", "", "incomplete", "2024-06-15", "T1"⟩]
        "all" "" "" "2024-12-31" "2024-01-01").errors.count
        "Due date range is invalid: From is after To." = 1) :=
  let h := reversed_range_policies
    [⟨1, "t", "", "incomplete", "2024-06-15", "T1"⟩]
    "all" "" "" "2024-12-31" "2024-01-01"
    { year := 2024, month := 12, day := 31 } { year := 2024, month := 1, day := 1 }
  ⟨h.1 (by decide) (by decide) (by decide) (by decide),
   h.2 (by decide) (by decide) (by decide) (by decide)⟩

/-- C5: `sort_tasks` is stable for every sort key — whenever all tasks
selected by a predicate `p` are pairwise tied under the key's comparator,
the selected tasks appear in the output in exactly their input order (the
standard filter characterization of stability) — and for an unknown or empty
key the returned list is exactly the input, unchanged. -/
theorem sort_tasks_stable (tasks : List TaskRec) (key : String) (p : TaskRec → Bool) :
    ((∀ a ∈ tasks, ∀ b ∈ tasks, p a → p b → sort_le key a b) →
      (sort_tasks tasks key).filter p = tasks.filter p) ∧
    (py_strip key ∉ ["due_asc", "due_desc", "status", "newest", "oldest"] →
      sort_tasks tasks key = tasks) := by
  constructor
  · intro tied
    simp only [sort_tasks, sort_le] at tied ⊢
    split_ifs at tied ⊢ with h1 h2 h3 h4 h5
    · exact mergeSort_filter_of_tied due_asc_le due_asc_le_trans due_asc_le_total p tasks tied
    · exact mergeSort_filter_of_tied due_desc_le due_desc_le_trans due_desc_le_total p tasks tied
    · exact mergeSort_filter_of_tied status_le status_le_trans status_le_total p tasks tied
    · exact mergeSort_filter_of_tied created_ge created_ge_trans created_ge_total p tasks tied
    · exact mergeSort_filter_of_tied created_le created_le_trans created_le_total p tasks tied
    · rfl
  · intro hun
    simp only [sort_tasks]
    split_ifs with h1 h2 h3 h4 h5
    · exact absurd (by simp [h1]) hun
    · exact absurd (by simp [h2]) hun
    · exact absurd (by simp [h3]) hun
    · exact absurd (by simp [h4]) hun
    · exact absurd (by simp [h5]) hun
    · rfl

/-- C5 witness: two tasks sharing due date and creation time keep their
input order under `due_asc`, and an unknown key returns the input
unchanged. -/
theorem sort_tasks_stable_witness :
    ((sort_tasks [⟨1, "a", "x", "incomplete", "2024-01-10", "T1"⟩,
                  ⟨2, "b", "y", "incomplete", "2024-01-10", "T1"⟩] "due_asc").filter
        (fun t => t.status == "incomplete") =
      ([⟨1, "a", "x", "incomplete", "2024-01-10", "T1"⟩,
        ⟨2, "b", "y", "incomplete", "2024-01-10", "T1"⟩] :
          List TaskRec).filter (fun t => t.status == "incomplete")) ∧
    sort_tasks [⟨1, "a", "x", "incomplete", "2024-01-10", "T1"⟩,
                ⟨2, "b", "y", "incomplete", "2024-01-10", "T1"⟩] "zzz" =
      [⟨1, "a", "x", "incomplete", "2024-01-10", "T1"⟩,
       ⟨2, "b", "y", "incomplete", "2024-01-10", "T1"⟩] :=
  ⟨(sort_tasks_stable
      [⟨1, "a", "x", "incomplete", "2024-01-10", "T1"⟩,
       ⟨2, "b", "y", "incomplete", "2024-01-10", "T1"⟩] "due_asc"
      (fun t => t.status == "incomplete")).1 (by decide),
   (sort_tasks_stable
      [⟨1, "a", "x", "incomplete", "2024-01-10", "T1"⟩,
       ⟨2, "b", "y", "incomplete", "2024-01-10", "T1"⟩] "zzz"
      (fun t => t.status == "incomplete")).2 (by decide)⟩

theorem daysBeforeMonth_mono (y m m' : Nat) (h1 : 1 ≤ m) (h2 : m < m')
    (h3 : m' ≤ 12) :
    daysBeforeMonth y m + daysInMonth y m ≤ daysBeforeMonth y m' := by
  have h4 : m ≤ 11 := by omega
  cases h : isLeap y <;>
    (interval_cases m <;> interval_cases m' <;>
      simp [daysBeforeMonth, daysInMonth, h] <;> omega)

theorem within_year_bound (y m d : Nat) (h1 : 1 ≤ m) (h2 : m ≤ 12) (h3 : 1 ≤ d)
    (h4 : d ≤ daysInMonth y m) :
    daysBeforeMonth y m + d ≤ 365 + (if isLeap y then 1 else 0) := by
  cases h : isLeap y <;>
    (interval_cases m <;> simp [daysBeforeMonth, daysInMonth, h] at * <;> omega)

theorem daysBeforeMonth_day_lt (y m d m' d' : Nat)
    (h1 : 1 ≤ m) (h2 : m ≤ 12) (h3 : 1 ≤ m') (h4 : m' ≤ 12)
    (h5 : 1 ≤ d) (h6 : d ≤ daysInMonth y m) (h7 : 1 ≤ d')
    (hlt : m < m' ∨ (m = m' ∧ d < d')) :
    daysBeforeMonth y m + d < daysBeforeMonth y m' + d' := by
  rcases hlt with h | ⟨rfl, h⟩
  · have := daysBeforeMonth_mono y m m' h1 h h4
    omega
  · omega

theorem isLeap_iff (y : Nat) :
    isLeap y = true ↔ (4 ∣ y ∧ (¬(100 ∣ y) ∨ 400 ∣ y)) := by
  simp [isLeap, Nat.dvd_iff_mod_eq_zero]

theorem daysBeforeYear_succ (y : Nat) (hy : 1 ≤ y) :
    daysBeforeYear (y + 1) =
      daysBeforeYear y + 365 + (if isLeap y then 1 else 0) := by
  have hsub : y - 1 + 1 = y := by omega
  have e4 := Nat.succ_div (y - 1) 4
  have e100 := Nat.succ_div (y - 1) 100
  have e400 := Nat.succ_div (y - 1) 400
  rw [hsub] at e4 e100 e400
  have i1 : (400 : Nat) ∣ y → (100 : Nat) ∣ y := fun h => dvd_trans ⟨4, rfl⟩ h
  have i2 : (100 : Nat) ∣ y → (4 : Nat) ∣ y := fun h => dvd_trans ⟨25, rfl⟩ h
  unfold daysBeforeYear
  simp only [Nat.add_sub_cancel]
  by_cases d4 : (4 : Nat) ∣ y <;> by_cases d100 : (100 : Nat) ∣ y <;>
    by_cases d400 : (400 : Nat) ∣ y
  all_goals (
    first
      | (have hL : isLeap y = true := isLeap_iff y |>.mpr (by tauto)
         simp only [hL, if_true, if_pos] at *
         simp only [d4, d100, d400, if_true, if_false, if_pos, if_neg,
           not_false_iff] at e4 e100 e400
         omega)
      | (have hL : isLeap y = false := by
           rw [Bool.eq_false_iff]
           intro hc
           rcases (isLeap_iff y).mp hc with ⟨hc1, hc2⟩
           tauto
         simp only [hL, if_false, Bool.false_eq_true] at *
         simp only [d4, d100, d400, if_true, if_false, if_pos, if_neg,
           not_false_iff] at e4 e100 e400
         omega)
      | tauto)

theorem daysBeforeYear_step_le (y y' : Nat) (h1 : 1 ≤ y) (h2 : y < y') :
    daysBeforeYear y + 365 + (if isLeap y then 1 else 0) ≤ daysBeforeYear y' := by
  induction y' with
  | zero => omega
  | succ k ih =>
    rcases Nat.lt_succ_iff_lt_or_eq.mp h2 with h | rfl
    · have hk := daysBeforeYear_succ k (by omega)
      have hik := ih h
      cases hL : isLeap k <;> simp [hL] at hk <;> omega
    · exact le_of_eq (daysBeforeYear_succ y h1).symm

theorem toordinal_lt (a b : Date) (ha : validDate a) (hb : validDate b)
    (hlt : dateLtb a b = true) : toordinal a < toordinal b := by
  obtain ⟨ha1, ha2, ha3, ha4, ha5, ha6⟩ := ha
  obtain ⟨hb1, hb2, hb3, hb4, hb5, hb6⟩ := hb
  simp only [dateLtb, Bool.or_eq_true, Bool.and_eq_true, beq_iff_eq,
    decide_eq_true_iff] at hlt
  unfold toordinal
  rcases hlt with h | ⟨hy, h⟩
  · have hA := within_year_bound a.year a.month a.day ha3 ha4 ha5 ha6
    have hB := daysBeforeYear_step_le a.year b.year ha1 h
    have hC : 1 ≤ daysBeforeMonth b.year b.month + b.day := by omega
    cases hL : isLeap a.year <;> simp [hL] at hA hB <;> omega
  · rw [hy] at ha6 ⊢
    have := daysBeforeMonth_day_lt b.year a.month a.day b.month b.day
      ha3 ha4 hb3 hb4 ha5 ha6 hb5 h
    omega

theorem dateLtb_of_toordinal_lt (a b : Date) (ha : validDate a) (hb : validDate b)
    (h : toordinal a < toordinal b) : dateLtb a b = true := by
  rcases (by simpa using dateLtb_tri a b :
      (dateLtb a b = true ∨ a = b) ∨ dateLtb b a = true) with (hc | hc) | hc
  · exact hc
  · subst hc; omega
  · have := toordinal_lt b a hb ha hc
    omega

theorem date_eq_of_toordinal_eq (a b : Date) (ha : validDate a) (hb : validDate b)
    (h : toordinal a = toordinal b) : a = b := by
  rcases (by simpa using dateLtb_tri a b :
      (dateLtb a b = true ∨ a = b) ∨ dateLtb b a = true) with (hc | hc) | hc
  · have := toordinal_lt a b ha hb hc
    omega
  · exact hc
  · have := toordinal_lt b a hb ha hc
    omega

theorem parse_valid (s : String) (d : Date)
    (h : parse_date_yyyy_mm_dd s = some d) : validDate d := by
  unfold parse_date_yyyy_mm_dd at h
  by_cases hs : s = ""
  · simp [hs] at h
  · rw [if_neg hs] at h
    split at h
    · split_ifs at h with h1 h2
      · injection h with h
        subst h
        exact h2
    · exact Option.noConfusion h

/-- The ordering the specification requires of `due_asc` output: a task
without a parseable due date never precedes one with a due date, dated tasks
are ascending by due date, and equal due dates are in ascending created-at
order. Pairs of undated tasks are unconstrained. -/
def due_asc_ord (a b : TaskRec) : Prop :=
  match parse_date_yyyy_mm_dd a.due_date, parse_date_yyyy_mm_dd b.due_date with
  | some da, some db =>
    dateLtb da db = true ∨ (da = db ∧ strLeb a.created_at b.created_at = true)
  | some _, none => True
  | none, some _ => False
  | none, none => True

/-- The ordering the specification requires of `due_desc` output: undated
tasks still last, dated tasks descending by due date, ties ascending by
created-at. -/
def due_desc_ord (a b : TaskRec) : Prop :=
  match parse_date_yyyy_mm_dd a.due_date, parse_date_yyyy_mm_dd b.due_date with
  | some da, some db =>
    dateLtb db da = true ∨ (da = db ∧ strLeb a.created_at b.created_at = true)
  | some _, none => True
  | none, some _ => False
  | none, none => True

theorem due_asc_le_imp_ord (a b : TaskRec) (h : due_asc_le a b = true) :
    due_asc_ord a b := by
  unfold due_asc_le due_asc_key lexb at h
  unfold due_asc_ord
  cases hpa : parse_date_yyyy_mm_dd a.due_date <;>
    cases hpb : parse_date_yyyy_mm_dd b.due_date <;>
      simp [hpa, hpb, boolLtb] at h ⊢
  exact h

theorem due_desc_le_imp_ord (a b : TaskRec) (h : due_desc_le a b = true) :
    due_desc_ord a b := by
  unfold due_desc_le due_desc_key lexb at h
  unfold due_desc_ord
  cases hpa : parse_date_yyyy_mm_dd a.due_date with
  | none =>
    cases hpb : parse_date_yyyy_mm_dd b.due_date <;>
      simp [hpa, hpb, boolLtb] at h ⊢
  | some da =>
    cases hpb : parse_date_yyyy_mm_dd b.due_date with
    | none => simp [hpa, hpb]
    | some db =>
      simp only [hpa, hpb, Option.isNone_some, Option.getD_some, boolLtb,
        intLtb, Bool.not_true, Bool.not_false, Bool.false_and, Bool.false_or,
        Bool.false_eq_true, and_false, false_or, false_and,
        Bool.and_eq_true, Bool.or_eq_true, beq_iff_eq, decide_eq_true_iff,
        beq_self_eq_true, true_and] at h ⊢
      have hva := parse_valid _ _ hpa
      have hvb := parse_valid _ _ hpb
      rcases h with h | ⟨he, hs⟩
      · have h3 : Int.ofNat (toordinal db) < Int.ofNat (toordinal da) :=
          neg_lt_neg_iff.mp h
        exact Or.inl (dateLtb_of_toordinal_lt db da hvb hva (Int.ofNat_lt.mp h3))
      · have h3 : Int.ofNat (toordinal da) = Int.ofNat (toordinal db) :=
          neg_inj.mp he
        exact Or.inr ⟨date_eq_of_toordinal_eq da db hva hvb (Int.ofNat_inj.mp h3), hs⟩

/-- C4: `sort_tasks` with key `due_asc` returns a permutation of the input
in which no undated task precedes a dated one, dated tasks are ascending by
due date, and equal due dates are ordered by ascending created-at; with key
`due_desc` it returns a permutation with undated tasks likewise last, dated
tasks descending by due date, and ties ordered by ascending created-at. -/
theorem due_sort_order_spec (tasks : List TaskRec) :
    (sort_tasks tasks "due_asc").Perm tasks ∧
    List.Pairwise due_asc_ord (sort_tasks tasks "due_asc") ∧
    (sort_tasks tasks "due_desc").Perm tasks ∧
    List.Pairwise due_desc_ord (sort_tasks tasks "due_desc") := by
  have ea : sort_tasks tasks "due_asc" = tasks.mergeSort due_asc_le := rfl
  have ed : sort_tasks tasks "due_desc" = tasks.mergeSort due_desc_le := rfl
  refine ⟨ea ▸ List.mergeSort_perm tasks due_asc_le, ?_,
          ed ▸ List.mergeSort_perm tasks due_desc_le, ?_⟩
  · rw [ea]
    exact (List.sorted_mergeSort due_asc_le_trans due_asc_le_total tasks).imp
      (fun h => due_asc_le_imp_ord _ _ h)
  · rw [ed]
    exact (List.sorted_mergeSort due_desc_le_trans due_desc_le_total tasks).imp
      (fun h => due_desc_le_imp_ord _ _ h)
